import Mathlib

/-!
Shallow embedding of the kademlia repository (core.py, protocol.py,
messages.py) and verification of the frozen claims about it.

Identifiers are modelled as `Nat` (Python unbounded ints; core.py annotates
nodeids as `int` and asserts the 160-bit bound where it matters).  Python
`datetime` timestamps are modelled as `Nat` ticks, and each mutator takes the
current time `now` explicitly where the source calls `datetime.utcnow()`.
Python exceptions are modelled as explicit result constructors; a raising
path returns the state unchanged, matching the fact that the raise happens
before any mutation in the source.
-/

set_option maxRecDepth 8000

namespace Kad

/-- Python `int.bit_length`, by fuelled binary recursion (fuel 320 covers
every value the repository feeds it, which asserts a 160-bit bound). -/
def bitLenAux : Nat → Nat → Nat
  | 0, _ => 0
  | fuel + 1, n => if n = 0 then 0 else bitLenAux fuel (n / 2) + 1

def bit_length (n : Nat) : Nat := bitLenAux 320 n

/-- core.node_distance: `left ^ right`. -/
def node_distance (left right : Nat) : Nat := left ^^^ right

/-- core.bucket_ranges: asserts `0 ≤ i < 160`, returns the inclusive
(min, max) distance pair `(2^i, 2^(i+1) - 1)` for bucket `i`.  A failed
assert is `none`. -/
def bucket_ranges (bucket_index : Nat) : Option (Nat × Nat) :=
  if bucket_index < 160 then some (2 ^ bucket_index, 2 ^ (bucket_index + 1) - 1) else none

/-- The set of values Python `random.randrange(a, b)` can return: the
half-open range `[a, b)`.  An empty range makes `randrange` raise
`ValueError`, which the caller models as `none` on an empty list. -/
def randrange_support (a b : Nat) : List Nat := List.range' a (b - a)

/-- core.random_key_in_bucket: `myid ^ random.randrange(*bucket_ranges(i))`.
Deterministic embedding: the list of every key the call can return;
`none` models a raised exception (assert failure in bucket_ranges, or
ValueError from an empty randrange). -/
def random_key_in_bucket (myid bucket_index : Nat) : Option (List Nat) :=
  match bucket_ranges bucket_index with
  | none => none
  | some (lo, hi) =>
    let ds := randrange_support lo hi
    if ds.isEmpty then none
    else some (ds.map (fun d => myid ^^^ d))

/-- core.Node: (addr, port, nodeid). -/
structure Node where
  addr : String
  port : Nat
  nodeid : Nat
deriving DecidableEq, Repr

/-- core.RoutingEntry: (node, last_seen). -/
structure RoutingEntry where
  node : Node
  last_seen : Nat
deriving DecidableEq, Repr

/-- core.RoutingEntry.update_last_seen, with the clock passed explicitly. -/
def RoutingEntry.update_last_seen (e : RoutingEntry) (now : Nat) : RoutingEntry :=
  { e with last_seen := now }

/-- A bucket: Python `OrderedDict[int, RoutingEntry]`, embedded as the list
of entries in insertion/recency order; the dict key of an entry `e` is
`e.node.nodeid`, unique within a bucket. -/
abbrev Bucket := List RoutingEntry

/-- OrderedDict membership test `nodeid in bucket`. -/
def bucketFind (b : Bucket) (nodeid : Nat) : Option RoutingEntry :=
  b.find? (fun e => e.node.nodeid == nodeid)

/-- OrderedDict key removal (`del bucket[nodeid]`, or the removal half of
`move_to_end`); keys are unique so at most one entry is removed. -/
def bucketErase (b : Bucket) (nodeid : Nat) : Bucket :=
  b.filter (fun e => e.node.nodeid != nodeid)

/-- core.RoutingTable: `k`, own nodeid, and the 160 buckets.  The Python
`defaultdict` is embedded as a length-160 list created empty. -/
structure RoutingTable where
  k : Nat
  nodeid : Nat
  buckets : List Bucket
deriving DecidableEq, Repr

/-- `RoutingTable.__init__`. -/
def mkTable (k nodeid : Nat) : RoutingTable :=
  ⟨k, nodeid, List.replicate 160 []⟩

def RoutingTable.getBucket (t : RoutingTable) (i : Nat) : Bucket :=
  t.buckets.getD i []

def RoutingTable.setBucket (t : RoutingTable) (i : Nat) (b : Bucket) : RoutingTable :=
  { t with buckets := t.buckets.set i b }

/-- core.RoutingTable._bucket_index_for: asserts the id differs from ours
and fits in 160 bits, computes `bit_length(distance) - 1`, and asserts the
result lies in [0, 160).  A failed assert is `none`. -/
def bucketIndexFor (selfid nodeid : Nat) : Option Nat :=
  if selfid = nodeid then none
  else if nodeid > 2 ^ 160 - 1 then none
  else if bit_length (node_distance selfid nodeid) - 1 < 160 then
    some (bit_length (node_distance selfid nodeid) - 1)
  else none

/-- Outcome of core.RoutingTable.node_seen: normal return, the
NoRoomInBucket exception carrying the least-recently-seen entry, or a
failed assert. -/
inductive SeenOutcome where
  | ok
  | noRoom (entry : RoutingEntry)
  | assertFail
deriving DecidableEq, Repr

/-- core.RoutingTable.node_seen, with the clock passed explicitly.  Returns
the outcome together with the table after the call (unchanged on every
raising path, since the source raises before mutating). -/
def node_seen (t : RoutingTable) (node : Node) (now : Nat) : SeenOutcome × RoutingTable :=
  if t.nodeid = node.nodeid then (.assertFail, t)
  else
    match bucketIndexFor t.nodeid node.nodeid with
    | none => (.assertFail, t)
    | some i =>
      let b := t.getBucket i
      match bucketFind b node.nodeid with
      | some e =>
        -- bump path: refresh last_seen in place, then move_to_end
        (.ok, t.setBucket i (bucketErase b node.nodeid ++ [e.update_last_seen now]))
      | none =>
        if b.length < t.k then
          (.ok, t.setBucket i (b ++ [⟨node, now⟩]))
        else
          match b with
          | [] => (.assertFail, t)  -- _first_element_of_ordered_dict asserts len > 0
          | e :: _ => (.noRoom e, t)

/-- core.RoutingTable.evict_node: `del bucket[nodeid]`; `none` models a
KeyError (missing id) or a failed assert in _bucket_index_for. -/
def evict_node (t : RoutingTable) (nodeid : Nat) : Option RoutingTable :=
  match bucketIndexFor t.nodeid nodeid with
  | none => none
  | some i =>
    let b := t.getBucket i
    match bucketFind b nodeid with
    | some _ => some (t.setBucket i (bucketErase b nodeid))
    | none => none

/-- One yielded group of core.RoutingTable._i_centered_indexes at a given
width: `(i - width,)` when in range, then `(i + width,)` when in range. -/
def centeredGroup (i width length : Nat) : List Nat :=
  (if width ≤ i then [i - width] else []) ++
    (if i + width < length then [i + width] else [])

/-- The widening loop of _i_centered_indexes: yields groups of increasing
width until both sides fall out of range.  Fuelled; `length + 1` steps are
always enough since every group at width ≥ length is empty. -/
def centeredAux (i length : Nat) : Nat → Nat → List (List Nat)
  | 0, _ => []
  | fuel + 1, width =>
    let g := centeredGroup i width length
    if g.isEmpty then [] else g :: centeredAux i length fuel (width + 1)

/-- core.RoutingTable._i_centered_indexes: `(i,)` then the widening groups. -/
def i_centered_indexes (i length : Nat) : List (List Nat) :=
  [i] :: centeredAux i length (length + 1) 1

/-- The `bucket_contents` lambda of _closest_nodes. -/
def RoutingTable.bucket_contents (t : RoutingTable) (i : Nat) : List Node :=
  (t.getBucket i).map (·.node)

/-- Insert into an already-sorted list, before the first element whose key
is not smaller (so an element inserted on top of equal keys lands first,
matching the head position it has in the unsorted list). -/
def insertByDistance (target : Nat) (x : Node) : List Node → List Node
  | [] => [x]
  | y :: ys =>
    if node_distance target x.nodeid ≤ node_distance target y.nodeid then x :: y :: ys
    else y :: insertByDistance target x ys

/-- The `sort_nodes` lambda of _closest_nodes and the `sorted(...)` call of
Server._lookup: Python `sorted` keyed on XOR distance to the target.
Python's sort is stable; stable insertion sort is extensionally the same
list. -/
def sortByDistance (target : Nat) : List Node → List Node
  | [] => []
  | x :: xs => insertByDistance target x (sortByDistance target xs)

/-- core.RoutingTable._closest_nodes: merge each group of buckets, sort each
merged batch by distance to the target, concatenate, take `n`. -/
def closest_nodes (t : RoutingTable) (target n : Nat) (groups : List (List Nat)) : List Node :=
  ((groups.map (fun g => sortByDistance target (g.flatMap t.bucket_contents))).flatten).take n

/-- core.RoutingTable.closest_to_me: every bucket index in order, one per
group. -/
def closest_to_me (t : RoutingTable) (n : Option Nat) : List Node :=
  closest_nodes t t.nodeid (n.getD t.k) ((List.range 160).map (fun i => [i]))

/-- core.RoutingTable.closest.  `n = none` is the Python default (use k);
the result is `none` when _bucket_index_for fails its asserts. -/
def closest (t : RoutingTable) (target : Nat) (n : Option Nat) : Option (List Node) :=
  if target = t.nodeid then some (closest_to_me t n)
  else
    match bucketIndexFor t.nodeid target with
    | none => none
    | some i => some (closest_nodes t target (n.getD t.k) (i_centered_indexes i 160))

/-- core.RoutingTable.first_occupied_bucket: first index in range(160) with
a non-empty bucket; `none` models the raised IndexError. -/
def first_occupied_bucket (t : RoutingTable) : Option Nat :=
  (List.range 160).find? (fun i => !(t.getBucket i).isEmpty)

/-! ### The ID class of core.py

Python objects have identity; `class ID` defines no `__eq__`, so `==` on two
ID instances is object identity.  `objId` models the result of Python
`id()`.  The instance dictionary holds exactly the attribute `value` set by
`__init__`. -/

structure PyID where
  objId : Nat
  value : Nat
deriving DecidableEq, Repr

/-- Python `==` between two ID instances: default object identity. -/
def pyIdEq (a b : PyID) : Bool := a.objId == b.objId

inductive PyError where
  | attributeError
  | assertionError
  | typeError
deriving DecidableEq, Repr

/-- Attribute lookup on an ID instance: `__init__` sets only `value`. -/
def idGetAttr (i : PyID) (name : String) : Option Nat :=
  if name = "value" then some i.value else none

/-- Big-endian `int.to_bytes(len, byteorder=big)` (what a correct encoder
would produce). -/
def natToBytesBE : Nat → Nat → List Nat
  | 0, _ => []
  | len + 1, n => natToBytesBE len (n / 256) ++ [n % 256]

/-- core.ID.to_bytes: the body is `self.valueto_bytes(20, byteorder=big)`,
so it looks up the attribute `valueto_bytes` on the instance; no such
attribute exists, hence every call raises AttributeError before producing
any bytes. -/
def ID.to_bytes (i : PyID) : Except PyError (List Nat) :=
  match idGetAttr i "valueto_bytes" with
  | none => .error .attributeError
  | some v => .ok (natToBytesBE 20 v)

/-- core.ID.from_bytes: big-endian decode, asserting a 160-bit bound; the
classmethod allocates a fresh object, whose identity is passed in. -/
def ID.from_bytes (freshObjId : Nat) (bs : List Nat) : Option PyID :=
  let asInt := bs.foldl (fun acc b => acc * 256 + b) 0
  if bit_length asInt ≤ 160 then some ⟨freshObjId, asInt⟩ else none

/-! ### protocol.py: messages and the Protocol class

The eight protobuf variants, with nonces as 160-bit naturals and byte
strings as lists of byte values. -/

inductive MsgBody where
  | ping
  | pong
  | store (key : Nat) (value : List Nat)
  | storeResponse
  | findNode (key : Nat)
  | findNodeResponse (neighbors : List Node)
  | findValue (key : Nat)
  | foundValue (key : Nat) (value : List Nat)
deriving DecidableEq, Repr


/-! ## Helper lemmas -/

theorem bitLenAux_zero (fuel : Nat) : bitLenAux fuel 0 = 0 := by
  cases fuel <;> simp [bitLenAux]

theorem bitLenAux_bounds : ∀ fuel n, 0 < n → n < 2 ^ fuel →
    1 ≤ bitLenAux fuel n ∧ 2 ^ (bitLenAux fuel n - 1) ≤ n ∧ n < 2 ^ bitLenAux fuel n := by
  intro fuel
  induction fuel with
  | zero =>
    intro n h1 h2
    simp at h2
    omega
  | succ f ih =>
    intro n h1 h2
    have hn : ¬ n = 0 := by omega
    by_cases hh : n / 2 = 0
    · have hn1 : n = 1 := by omega
      subst hn1
      simp [bitLenAux, bitLenAux_zero]
    · have hlt : n / 2 < 2 ^ f := by
        rw [Nat.div_lt_iff_lt_mul (by norm_num : 0 < 2)]
        calc n < 2 ^ (f + 1) := h2
        _ = 2 ^ f * 2 := by rw [pow_succ]
      obtain ⟨hL1, hL2, hL3⟩ := ih (n / 2) (by omega) hlt
      have hv : bitLenAux (f + 1) n = bitLenAux f (n / 2) + 1 := by
        simp [bitLenAux, hn]
      rw [hv]
      have e1 : 2 ^ bitLenAux f (n / 2) = 2 ^ (bitLenAux f (n / 2) - 1) * 2 := by
        rw [← pow_succ]
        congr 1
        omega
      have e2 : 2 ^ (bitLenAux f (n / 2) + 1) = 2 ^ bitLenAux f (n / 2) * 2 := by
        rw [pow_succ]
      have d1 := Nat.div_add_mod n 2
      have d2 : n % 2 < 2 := Nat.mod_lt n (by norm_num)
      refine ⟨by omega, ?_, by omega⟩
      rw [Nat.add_sub_cancel]
      omega

theorem bit_length_bounds (n : Nat) (h1 : 0 < n) (h2 : n < 2 ^ 160) :
    1 ≤ bit_length n ∧ bit_length n ≤ 160 ∧
      2 ^ (bit_length n - 1) ≤ n ∧ n < 2 ^ bit_length n := by
  have h2' : n < 2 ^ 320 :=
    lt_of_lt_of_le h2 (Nat.pow_le_pow_right (by norm_num) (by norm_num))
  obtain ⟨a, b, c⟩ := bitLenAux_bounds 320 n h1 h2'
  rw [bit_length]
  refine ⟨a, ?_, b, c⟩
  by_contra hgt
  push_neg at hgt
  have : 2 ^ 160 ≤ 2 ^ (bitLenAux 320 n - 1) :=
    Nat.pow_le_pow_right (by norm_num) (by omega)
  omega

/-! ## Claim theorems -/

/-- C7: for distinct 160-bit ids, `_bucket_index_for` passes its asserts and
returns `bit_length(a XOR b) - 1`, which lies in [0, 159] and is the
position of the highest set bit of the XOR
(`2^i ≤ a XOR b < 2^(i+1)`). -/
theorem c7_bucket_index_defined (a b : Nat) (hne : a ≠ b)
    (ha : a < 2 ^ 160) (hb : b < 2 ^ 160) :
    bucketIndexFor a b = some (bit_length (node_distance a b) - 1) ∧
    bit_length (node_distance a b) - 1 ≤ 159 ∧
    2 ^ (bit_length (node_distance a b) - 1) ≤ node_distance a b ∧
    node_distance a b < 2 ^ (bit_length (node_distance a b) - 1 + 1) := by
  have hxor : node_distance a b < 2 ^ 160 := Nat.xor_lt_two_pow ha hb
  have hpos : 0 < node_distance a b := by
    rcases Nat.eq_zero_or_pos (node_distance a b) with h | h
    · exact absurd (Nat.xor_eq_zero.mp h) hne
    · exact h
  obtain ⟨h1, h2, h3, h4⟩ := bit_length_bounds _ hpos hxor
  have hidx : bit_length (node_distance a b) - 1 < 160 := by omega
  refine ⟨?_, by omega, h3, ?_⟩
  · rw [bucketIndexFor, if_neg hne, if_neg (by omega), if_pos hidx]
  · have heq : bit_length (node_distance a b) - 1 + 1 = bit_length (node_distance a b) := by
      omega
    rw [heq]
    exact h4

/-- Witness for C7, covering the spec's worked examples: self `0b1000`
against `0b1001`, `0b1010`, `0b1011`, `0b1100`, `0b0000`, and self 0
against `2^160 - 1`. -/
theorem c7_witness :
    ((8 : Nat) ≠ 9 ∧ (8 : Nat) < 2 ^ 160 ∧ (9 : Nat) < 2 ^ 160) ∧
    bucketIndexFor 8 9 = some 0 ∧ bucketIndexFor 8 10 = some 1 ∧
    bucketIndexFor 8 11 = some 1 ∧ bucketIndexFor 8 12 = some 2 ∧
    bucketIndexFor 8 0 = some 3 ∧ bucketIndexFor 0 (2 ^ 160 - 1) = some 159 := by
  have h := c7_bucket_index_defined 8 9 (by norm_num) (by norm_num) (by norm_num)
  refine ⟨⟨by norm_num, by norm_num, by norm_num⟩, ?_, by decide, by decide, by decide,
    by decide, by decide⟩
  have hv : bit_length (node_distance 8 9) - 1 = 0 := by decide
  rw [hv] at h
  exact h.1

def mkNodeAt (id : Nat) : Node := ⟨"localhost", 1, id⟩

/-- The C1 failing input: self id 0, k = 3, after observing peers with ids
1, 2 and 8 (landing in buckets 0, 1 and 3). -/
def c1Table : RoutingTable :=
  (node_seen (node_seen (node_seen (mkTable 3 0) (mkNodeAt 1) 10).2
    (mkNodeAt 2) 11).2 (mkNodeAt 8) 12).2

/-- C1: at the failing input, `closest(4, 3)` returns the peers with ids
[2, 8, 1], whose XOR distances to the target 4 are [6, 12, 5] — not
non-decreasing (the length clause min(n, total) = 3 does hold).  The
outward bucket walk emits bucket 0 (distance 5) after bucket 3
(distance 12). -/
theorem c1_closest_distances_not_monotone :
    (closest c1Table 4 (some 3)).map (fun l => l.map (fun nd => node_distance 4 nd.nodeid))
        = some [6, 12, 5] ∧
    ¬ List.Sorted (· ≤ ·) [6, 12, 5] ∧
    (closest c1Table 4 (some 3)).map List.length = some (min 3 3) := by
  refine ⟨by rfl, by decide, by rfl⟩

/-- C8: `random_key_in_bucket` feeds the inclusive (min, max) pair of
`bucket_ranges` to the exclusive-stop `random.randrange`.  For bucket 0 the
range (1, 1) is empty and the call raises ValueError; for bucket 4 from
self 16 the key at the maximal in-bucket distance 31 (namely 16 XOR 31) is
never produced, although the spec's `bucket_range(4) = [16, 31]` contains
31. -/
theorem c8_random_key_misses_top_of_bucket :
    bucket_ranges 0 = some (1, 1) ∧
    random_key_in_bucket 16 0 = none ∧
    bucket_ranges 4 = some (16, 31) ∧
    (random_key_in_bucket 16 4).isSome = true ∧
    (16 ^^^ 31) ∉ (random_key_in_bucket 16 4).getD [] := by
  refine ⟨by decide, by decide, by decide, by decide, by decide⟩

/-- C9: `ID.to_bytes` reads the attribute `valueto_bytes` (a typo for
`value.to_bytes`), which no ID instance has, so every encode attempt raises
AttributeError; and `class ID` defines no `__eq__`, so two distinct ID
objects carrying the same 160-bit value compare unequal (object identity),
contradicting equality by value and the decode∘encode round trip. -/
theorem c9_id_encoding_and_equality_broken :
    ID.to_bytes ⟨0, 2 ^ 160 - 1⟩ = .error .attributeError ∧
    (∀ i : PyID, ID.to_bytes i = .error .attributeError) ∧
    pyIdEq ⟨0, 5⟩ ⟨1, 5⟩ = false := by
  refine ⟨by rfl, fun i => by simp [ID.to_bytes, idGetAttr], by decide⟩

theorem find?_range'_spec {p : Nat → Bool} :
    ∀ (n a i : Nat), (List.range' a n).find? p = some i →
      a ≤ i ∧ i < a + n ∧ p i = true ∧ ∀ j, a ≤ j → j < i → p j = false := by
  intro n
  induction n with
  | zero =>
    intro a i h
    simp [List.range'] at h
  | succ m ih =>
    intro a i h
    rw [List.range'] at h
    rw [List.find?_cons] at h
    by_cases hp : p a
    · rw [hp] at h
      simp at h
      subst h
      exact ⟨Nat.le_refl _, by omega, hp, fun j h1 h2 => by omega⟩
    · rw [Bool.not_eq_true] at hp
      rw [hp] at h
      obtain ⟨h1, h2, h3, h4⟩ := ih (a + 1) i h
      refine ⟨by omega, by omega, h3, ?_⟩
      intro j hj1 hj2
      rcases Nat.eq_or_lt_of_le hj1 with rfl | hlt
      · exact hp
      · exact h4 j hlt hj2

/-- C10: `first_occupied_bucket` raises IndexError exactly when every
bucket is empty; when it returns an index, that bucket is non-empty and
every smaller-indexed bucket is empty. -/
theorem c10_first_occupied_bucket (t : RoutingTable) :
    ((∀ i < 160, t.getBucket i = []) ↔ first_occupied_bucket t = none) ∧
    (∀ i, first_occupied_bucket t = some i →
      i < 160 ∧ t.getBucket i ≠ [] ∧ ∀ j < i, t.getBucket j = []) := by
  constructor
  · constructor
    · intro h
      rw [first_occupied_bucket, List.find?_eq_none]
      intro x hx
      rw [List.mem_range] at hx
      simp [h x hx]
    · intro h i hi
      rw [first_occupied_bucket, List.find?_eq_none] at h
      have := h i (List.mem_range.mpr hi)
      simpa [List.isEmpty_iff] using this
  · intro i h
    rw [first_occupied_bucket, List.range_eq_range'] at h
    obtain ⟨h1, h2, h3, h4⟩ := find?_range'_spec 160 0 i h
    refine ⟨by omega, ?_, ?_⟩
    · intro hnil
      rw [hnil] at h3
      simp at h3
    · intro j hj
      have := h4 j (Nat.zero_le j) hj
      simpa [List.isEmpty_iff] using this

/-- Witness for C10: the freshly created table has only empty buckets and
first_occupied_bucket raises; a table whose bucket 2 is occupied returns
index 2. -/
theorem c10_witness :
    (∀ i < 160, (mkTable 2 8).getBucket i = []) ∧
    first_occupied_bucket (mkTable 2 8) = none := by
  have h : ∀ i < 160, (mkTable 2 8).getBucket i = [] := by decide
  exact ⟨h, (c10_first_occupied_bucket (mkTable 2 8)).1.mp h⟩

/-- C2: observing a peer whose (full) bucket does not contain it raises
NoRoomInBucket carrying the bucket's head — its least-recently-seen entry —
inserts nothing, and leaves the whole table exactly as it was. -/
theorem c2_full_bucket_no_room (t : RoutingTable) (node : Node) (now i : Nat)
    (hi : bucketIndexFor t.nodeid node.nodeid = some i)
    (habs : bucketFind (t.getBucket i) node.nodeid = none)
    (hfull : (t.getBucket i).length = t.k) (hk : 0 < t.k) :
    ∃ e rest, t.getBucket i = e :: rest ∧ node_seen t node now = (.noRoom e, t) := by
  have hne : t.nodeid ≠ node.nodeid := by
    intro h
    rw [bucketIndexFor, if_pos h] at hi
    exact Option.noConfusion hi
  obtain ⟨e, rest, hb⟩ : ∃ e rest, t.getBucket i = e :: rest := by
    cases hbk : t.getBucket i with
    | nil =>
      rw [hbk] at hfull
      simp at hfull
      omega
    | cons e rest => exact ⟨e, rest, rfl⟩
  refine ⟨e, rest, hb, ?_⟩
  rw [node_seen, if_neg hne, hi]
  simp only
  rw [habs]
  simp only
  rw [if_neg (by omega), hb]

/-- The spec's bucket-fill scenario: self `0b1000`, k = 2, peers `0b1100`
and `0b1101` observed (both land in bucket 2). -/
def c2Table : RoutingTable :=
  (node_seen (node_seen (mkTable 2 8) (mkNodeAt 12) 1).2 (mkNodeAt 13) 2).2

/-- Witness for C2: the spec's bucket-fill scenario — self `0b1000`, k = 2,
bucket 2 filled by `0b1100` and `0b1101`; observing `0b1110` surfaces the
entry for `0b1100` and changes nothing. -/
theorem c2_witness :
    bucketIndexFor c2Table.nodeid 14 = some 2 ∧
    bucketFind (c2Table.getBucket 2) 14 = none ∧
    (c2Table.getBucket 2).length = c2Table.k ∧ 0 < c2Table.k ∧
    ∃ e rest, c2Table.getBucket 2 = e :: rest ∧
      node_seen c2Table (mkNodeAt 14) 3 = (.noRoom e, c2Table) := by
  exact ⟨by decide, by decide, by decide, by decide,
    c2_full_bucket_no_room c2Table (mkNodeAt 14) 3 2 (by decide) (by decide)
      (by decide) (by decide)⟩


/-! ### Specification predicates and lemmas for the bucket invariants -/

/-- Recency order on entries: non-decreasing last_seen. -/
def entryLE (x y : RoutingEntry) : Prop := x.last_seen ≤ y.last_seen

instance : DecidableRel entryLE := fun x y => Nat.decLe x.last_seen y.last_seen

/-- The k-bucket invariant: at most k entries, last_seen non-decreasing from
head to tail, and (as for any dict) no duplicated key. -/
def bucketWF (k : Nat) (b : Bucket) : Prop :=
  b.length ≤ k ∧ List.Pairwise entryLE b ∧ (b.map (fun e => e.node.nodeid)).Nodup

instance (k : Nat) (b : Bucket) : Decidable (bucketWF k b) := by
  unfold bucketWF
  infer_instance

/-- The routing-table invariant: 160 buckets, each well-formed. -/
def tableWF (t : RoutingTable) : Prop :=
  t.buckets.length = 160 ∧ ∀ i, bucketWF t.k (t.getBucket i)

/-- The clock has not run backwards: every recorded last_seen is ≤ now. -/
def tableLE (t : RoutingTable) (now : Nat) : Prop :=
  ∀ i, ∀ e ∈ t.getBucket i, e.last_seen ≤ now

theorem getBucket_out_of_range (t : RoutingTable) (i : Nat) (h : t.buckets.length ≤ i) :
    t.getBucket i = [] := by
  rw [RoutingTable.getBucket, List.getD_eq_getElem?_getD, List.getElem?_eq_none h]
  rfl

theorem tableWF_of_forall (t : RoutingTable) (hlen : t.buckets.length = 160)
    (h : ∀ i < 160, bucketWF t.k (t.getBucket i)) : tableWF t := by
  refine ⟨hlen, fun i => ?_⟩
  by_cases hi : i < 160
  · exact h i hi
  · rw [getBucket_out_of_range t i (by omega)]
    exact ⟨Nat.zero_le _, List.Pairwise.nil, List.nodup_nil⟩

theorem tableLE_of_forall (t : RoutingTable) (now : Nat) (hlen : t.buckets.length = 160)
    (h : ∀ i < 160, ∀ e ∈ t.getBucket i, e.last_seen ≤ now) : tableLE t now := by
  intro i e he
  by_cases hi : i < 160
  · exact h i hi e he
  · rw [getBucket_out_of_range t i (by omega)] at he
    simp at he

theorem getBucket_setBucket_self (t : RoutingTable) (i : Nat) (b : Bucket)
    (h : i < t.buckets.length) : (t.setBucket i b).getBucket i = b := by
  rw [RoutingTable.setBucket, RoutingTable.getBucket]
  simp [List.getD_eq_getElem?_getD, List.getElem?_set_self h]

theorem getBucket_setBucket_ne (t : RoutingTable) (i j : Nat) (b : Bucket)
    (h : i ≠ j) : (t.setBucket i b).getBucket j = t.getBucket j := by
  rw [RoutingTable.setBucket, RoutingTable.getBucket, RoutingTable.getBucket]
  simp [List.getD_eq_getElem?_getD, List.getElem?_set_ne h]

theorem bucketIndexFor_lt (a b i : Nat) (h : bucketIndexFor a b = some i) : i < 160 := by
  rw [bucketIndexFor] at h
  by_cases h1 : a = b
  · rw [if_pos h1] at h
    simp at h
  · rw [if_neg h1] at h
    by_cases h2 : b > 2 ^ 160 - 1
    · rw [if_pos h2] at h
      simp at h
    · rw [if_neg h2] at h
      by_cases h3 : bit_length (node_distance a b) - 1 < 160
      · rw [if_pos h3] at h
        injection h with h4
        omega
      · rw [if_neg h3] at h
        simp at h

theorem bucketIndexFor_ne (a b i : Nat) (h : bucketIndexFor a b = some i) : a ≠ b := by
  intro hab
  rw [bucketIndexFor, if_pos hab] at h
  simp at h

theorem bucketErase_sublist (b : Bucket) (id : Nat) : (bucketErase b id).Sublist b :=
  List.filter_sublist b

theorem mem_bucketErase_ne (b : Bucket) (id : Nat) :
    ∀ e ∈ bucketErase b id, e.node.nodeid ≠ id := by
  intro e he
  have := List.of_mem_filter he
  simpa using this

theorem bucketFind_none (b : Bucket) (id : Nat) (h : bucketFind b id = none) :
    ∀ e ∈ b, e.node.nodeid ≠ id := by
  rw [bucketFind, List.find?_eq_none] at h
  intro e he
  simpa using h e he

theorem bucketFind_some_mem (b : Bucket) (id : Nat) (e : RoutingEntry)
    (h : bucketFind b id = some e) : e ∈ b ∧ e.node.nodeid = id := by
  refine ⟨List.mem_of_find?_eq_some h, ?_⟩
  have := List.find?_some h
  simpa using this

theorem bucketErase_length (b : Bucket) (id : Nat) :
    (b.map (fun e => e.node.nodeid)).Nodup → (bucketFind b id).isSome = true →
    (bucketErase b id).length + 1 = b.length := by
  induction b with
  | nil =>
    intro _ h
    simp [bucketFind] at h
  | cons a l ih =>
    intro hnd h
    simp only [List.map_cons, List.nodup_cons] at hnd
    by_cases ha : a.node.nodeid = id
    · have hrest : bucketErase l id = l := by
        rw [bucketErase, List.filter_eq_self]
        intro x hx
        simp only [bne_iff_ne, ne_eq]
        intro hx2
        exact hnd.1 (List.mem_map.mpr ⟨x, hx, by rw [hx2, ha]⟩)
      have hpa : (a.node.nodeid != id) = false := by simp [ha]
      rw [bucketErase, List.filter_cons, hpa]
      simp only [Bool.false_eq_true, if_false, List.length_cons]
      rw [show List.filter (fun e => e.node.nodeid != id) l = bucketErase l id from rfl, hrest]
    · have h' : (bucketFind l id).isSome = true := by
        rw [bucketFind, List.find?_cons] at h
        have hpa : (a.node.nodeid == id) = false := by simp [ha]
        rw [hpa] at h
        exact h
      have hlen := ih hnd.2 h'
      have hpa : (a.node.nodeid != id) = true := by simp [ha]
      rw [bucketErase, List.filter_cons, hpa]
      simp only [if_true, List.length_cons]
      rw [show List.filter (fun e => e.node.nodeid != id) l = bucketErase l id from rfl]
      omega

theorem pairwise_concat_of_le (b : Bucket) (x : RoutingEntry)
    (hb : List.Pairwise entryLE b) (hle : ∀ e ∈ b, e.last_seen ≤ x.last_seen) :
    List.Pairwise entryLE (b ++ [x]) := by
  rw [List.pairwise_append]
  refine ⟨hb, List.pairwise_singleton _ _, fun a ha y hy => ?_⟩
  rw [List.mem_singleton] at hy
  subst hy
  exact hle a ha

theorem nodup_concat_keys (b : Bucket) (x : RoutingEntry)
    (hnd : (b.map (fun e => e.node.nodeid)).Nodup)
    (hx : ∀ e ∈ b, e.node.nodeid ≠ x.node.nodeid) :
    ((b ++ [x]).map (fun e => e.node.nodeid)).Nodup := by
  rw [List.map_append]
  refine List.Nodup.append hnd (List.nodup_singleton _) ?_
  intro a ha hb2
  rw [List.map_singleton, List.mem_singleton] at hb2
  obtain ⟨e, he, hk⟩ := List.mem_map.mp ha
  exact hx e he (by rw [← hk] at hb2; exact hb2)

theorem bucketWF_sublist (k : Nat) (b b' : Bucket) (hwf : bucketWF k b)
    (hs : b'.Sublist b) : bucketWF k b' := by
  obtain ⟨h1, h2, h3⟩ := hwf
  exact ⟨le_trans hs.length_le h1, h2.sublist hs, h3.sublist (hs.map _)⟩

theorem tableWF_setBucket (t : RoutingTable) (i : Nat) (b : Bucket)
    (hwf : tableWF t) (hi : i < 160) (hb : bucketWF t.k b) :
    tableWF (t.setBucket i b) := by
  obtain ⟨hlen, hall⟩ := hwf
  refine ⟨by simpa [RoutingTable.setBucket] using hlen, fun j => ?_⟩
  by_cases hij : i = j
  · subst hij
    rw [getBucket_setBucket_self t i b (by omega)]
    exact hb
  · rw [getBucket_setBucket_ne t i j b hij]
    exact hall j

theorem node_seen_bump (t : RoutingTable) (node : Node) (now i : Nat) (e : RoutingEntry)
    (hi : bucketIndexFor t.nodeid node.nodeid = some i)
    (hfind : bucketFind (t.getBucket i) node.nodeid = some e) :
    node_seen t node now =
      (.ok, t.setBucket i (bucketErase (t.getBucket i) node.nodeid ++ [⟨e.node, now⟩])) := by
  rw [node_seen, if_neg (bucketIndexFor_ne _ _ _ hi), hi]
  simp only
  rw [hfind]
  rfl

theorem node_seen_insert (t : RoutingTable) (node : Node) (now i : Nat)
    (hi : bucketIndexFor t.nodeid node.nodeid = some i)
    (hnone : bucketFind (t.getBucket i) node.nodeid = none)
    (hlt : (t.getBucket i).length < t.k) :
    node_seen t node now = (.ok, t.setBucket i (t.getBucket i ++ [⟨node, now⟩])) := by
  rw [node_seen, if_neg (bucketIndexFor_ne _ _ _ hi), hi]
  simp only
  rw [hnone]
  simp only
  rw [if_pos hlt]

theorem node_seen_table_cases (t : RoutingTable) (node : Node) (now : Nat) :
    (node_seen t node now).2 = t ∨
    ∃ i, bucketIndexFor t.nodeid node.nodeid = some i ∧
      ((∃ e, bucketFind (t.getBucket i) node.nodeid = some e ∧
        (node_seen t node now).2
          = t.setBucket i (bucketErase (t.getBucket i) node.nodeid ++ [⟨e.node, now⟩])) ∨
       (bucketFind (t.getBucket i) node.nodeid = none ∧ (t.getBucket i).length < t.k ∧
        (node_seen t node now).2 = t.setBucket i (t.getBucket i ++ [⟨node, now⟩]))) := by
  by_cases hne : t.nodeid = node.nodeid
  · left
    rw [node_seen, if_pos hne]
  · cases hi : bucketIndexFor t.nodeid node.nodeid with
    | none =>
      left
      rw [node_seen, if_neg hne, hi]
    | some i =>
      cases hfind : bucketFind (t.getBucket i) node.nodeid with
      | some e =>
        right
        exact ⟨i, rfl, .inl ⟨e, hfind, by rw [node_seen_bump t node now i e hi hfind]⟩⟩
      | none =>
        by_cases hlt : (t.getBucket i).length < t.k
        · right
          exact ⟨i, rfl, .inr ⟨hfind, hlt, by rw [node_seen_insert t node now i hi hfind hlt]⟩⟩
        · left
          rw [node_seen, if_neg hne, hi]
          simp only
          rw [hfind]
          simp only
          rw [if_neg hlt]
          cases t.getBucket i <;> rfl

/-- C5: buckets always hold at most k entries in non-decreasing last_seen
order (with unique keys); a fresh table satisfies this, and both observe
(node_seen, under a monotone clock) and evict preserve it.  Observing a
peer already present with a strictly later `now` returns ok and yields a
bucket of unchanged length whose last entry is that peer's stored node
stamped `now` (strictly larger than before), the remaining entries being
exactly the old bucket minus that entry in unchanged relative order. -/
theorem c5_bucket_invariants (t : RoutingTable) (node : Node) (now : Nat)
    (hwf : tableWF t) (hle : tableLE t now) :
    (∀ k s, tableWF (mkTable k s)) ∧
    tableWF (node_seen t node now).2 ∧
    (∀ id t', evict_node t id = some t' → tableWF t') ∧
    (∀ i e, bucketIndexFor t.nodeid node.nodeid = some i →
      bucketFind (t.getBucket i) node.nodeid = some e →
      e.last_seen < now →
      (node_seen t node now).1 = .ok ∧
      ((node_seen t node now).2.getBucket i).getLast? = some ⟨e.node, now⟩ ∧
      ((node_seen t node now).2.getBucket i).length = (t.getBucket i).length ∧
      ((node_seen t node now).2.getBucket i).dropLast.Sublist (t.getBucket i) ∧
      ((node_seen t node now).2.getBucket i).dropLast.length + 1
        = (t.getBucket i).length) := by
  have hlen160 : t.buckets.length = 160 := hwf.1
  refine ⟨?_, ?_, ?_, ?_⟩
  · -- a fresh table is well-formed
    intro k s
    refine tableWF_of_forall _ (by simp [mkTable]) ?_
    intro i hi
    have : (mkTable k s).getBucket i = [] := by
      rw [mkTable, RoutingTable.getBucket]
      simp only [List.getD_eq_getElem?_getD, List.getElem?_replicate]
      split <;> rfl
    rw [this]
    exact ⟨Nat.zero_le _, List.Pairwise.nil, List.nodup_nil⟩
  · -- observe preserves the invariant
    rcases node_seen_table_cases t node now with hcase | ⟨i, hi, hcase⟩
    · rw [hcase]
      exact hwf
    · have hi160 := bucketIndexFor_lt _ _ _ hi
      rcases hcase with ⟨e, hfind, heq⟩ | ⟨hnone, hlt, heq⟩
      · rw [heq]
        obtain ⟨hl, hp, hn⟩ := hwf.2 i
        refine tableWF_setBucket t i _ hwf hi160 ⟨?_, ?_, ?_⟩
        · rw [List.length_append, List.length_singleton]
          have := bucketErase_length (t.getBucket i) node.nodeid hn
            (by rw [hfind]; rfl)
          omega
        · refine pairwise_concat_of_le _ _ (hp.sublist (bucketErase_sublist _ _)) ?_
          intro x hx
          exact hle i x ((bucketErase_sublist _ _).mem hx)
        · refine nodup_concat_keys _ _ (hn.sublist ((bucketErase_sublist _ _).map _)) ?_
          intro x hx
          have hxne := mem_bucketErase_ne (t.getBucket i) node.nodeid x hx
          have hek := (bucketFind_some_mem _ _ _ hfind).2
          simpa [hek] using hxne
      · rw [heq]
        obtain ⟨hl, hp, hn⟩ := hwf.2 i
        refine tableWF_setBucket t i _ hwf hi160 ⟨?_, ?_, ?_⟩
        · rw [List.length_append, List.length_singleton]
          omega
        · exact pairwise_concat_of_le _ _ hp (fun x hx => hle i x hx)
        · exact nodup_concat_keys _ _ hn (bucketFind_none _ _ hnone)
  · -- evict preserves the invariant
    intro id t' hev
    rw [evict_node] at hev
    cases hi : bucketIndexFor t.nodeid id with
    | none =>
      rw [hi] at hev
      simp at hev
    | some i =>
      rw [hi] at hev
      simp only at hev
      cases hfind : bucketFind (t.getBucket i) id with
      | none =>
        rw [hfind] at hev
        simp at hev
      | some e =>
        rw [hfind] at hev
        simp only [Option.some.injEq] at hev
        subst hev
        exact tableWF_setBucket t i _ hwf (bucketIndexFor_lt _ _ _ hi)
          (bucketWF_sublist _ _ _ (hwf.2 i) (bucketErase_sublist _ _))
  · -- the bump path
    intro i e hi hfind hstrict
    have hi160 := bucketIndexFor_lt _ _ _ hi
    have heq := node_seen_bump t node now i e hi hfind
    have hbucket : (node_seen t node now).2.getBucket i
        = bucketErase (t.getBucket i) node.nodeid ++ [⟨e.node, now⟩] := by
      rw [heq]
      exact getBucket_setBucket_self t i _ (by omega)
    have herase := bucketErase_length (t.getBucket i) node.nodeid (hwf.2 i).2.2
      (by rw [hfind]; rfl)
    refine ⟨by rw [heq], ?_, ?_, ?_, ?_⟩
    · rw [hbucket]
      exact List.getLast?_concat _
    · rw [hbucket, List.length_append, List.length_singleton]
      omega
    · rw [hbucket, List.dropLast_concat]
      exact bucketErase_sublist _ _
    · rw [hbucket, List.dropLast_concat]
      exact herase

/-- The table for the C5 witness: self `0b1000`, k = 2, one observation of
peer `0b1100` at time 1. -/
def c5Table : RoutingTable := (node_seen (mkTable 2 8) (mkNodeAt 12) 1).2

/-- Witness for C5: re-observing peer `0b1100` at time 5 succeeds, keeps the
bucket length, puts the entry at the tail restamped to 5 > 1, and the
updated table still satisfies the invariant. -/
theorem c5_witness :
    (node_seen c5Table (mkNodeAt 12) 5).1 = .ok ∧
    ((node_seen c5Table (mkNodeAt 12) 5).2.getBucket 2).getLast? = some ⟨mkNodeAt 12, 5⟩ ∧
    ((node_seen c5Table (mkNodeAt 12) 5).2.getBucket 2).length = (c5Table.getBucket 2).length ∧
    tableWF (node_seen c5Table (mkNodeAt 12) 5).2 := by
  have hwf : tableWF c5Table := tableWF_of_forall _ (by decide) (by decide)
  have hle : tableLE c5Table 5 := tableLE_of_forall _ 5 (by decide) (by decide)
  have h := c5_bucket_invariants c5Table (mkNodeAt 12) 5 hwf hle
  have hb := h.2.2.2 2 ⟨mkNodeAt 12, 1⟩ (by decide) (by decide) (by decide)
  exact ⟨hb.1, hb.2.1, hb.2.2.1, h.2.1⟩

/-! ### protocol.py as it actually executes

protocol.py is not type-consistent with core.py: `read_nodeid` (and
`Server.__init__`'s annotation) wrap every id in a `core.ID` object,
while `core.RoutingTable` and the message builders were written for ints.
`class ID` has no `__eq__` (so `==`/`!=` and dict keying use object
identity) and no ordering against int (so `ID >= 0` raises TypeError),
and `ID.to_bytes` raises AttributeError (the `valueto_bytes` typo).
The definitions below embed the protocol layer with those semantics:
ids are `PyID` values carrying their object identity (`objId`). -/

/-- core.Node as the protocol layer builds it: the nodeid field holds a
core.ID object (Server.listen stores self.nodeid, an ID; read_node wraps
the wire bytes in a freshly allocated ID). -/
structure PyNode where
  addr : String
  port : Nat
  nodeid : PyID
deriving DecidableEq, Repr

/-- protocol.write_nodeid: `nodeid.to_bytes()` on a core.ID — raises
AttributeError on every call (the `valueto_bytes` typo). -/
def write_nodeid (nodeid : PyID) : Except PyError (List Nat) :=
  ID.to_bytes nodeid

/-- The wire fields protocol.create_message would fill in. -/
structure WireStub where
  senderIp : String
  senderPort : Nat
  senderId : List Nat
  nonce : Nat
deriving DecidableEq, Repr

/-- protocol.create_message: sets sender.ip, sender.port, then
`sender.nodeid = write_nodeid(node.nodeid)` — which raises AttributeError
before the nonce is even stamped — so building any outbound message fails.
`freshNonce` stands for the `newnonce()` that would follow. -/
def create_message_py (node : PyNode) (freshNonce : Nat) : Except PyError WireStub :=
  match write_nodeid node.nodeid with
  | .error e => .error e
  | .ok bs => .ok ⟨node.addr, node.port, bs, freshNonce⟩

/-- core.RoutingTable._bucket_index_for when handed core.ID objects, as
every call from protocol.py is: `assert self.nodeid != nodeid` is an
identity comparison (class ID defines no __eq__) and passes for distinct
objects, and then `assert nodeid >= 0` compares an ID against an int,
which Python rejects with TypeError.  The function can never return an
index on ID inputs, so its result is the exception it raises. -/
def bucket_index_for_py (selfid nodeid : PyID) : PyError :=
  if selfid.objId = nodeid.objId then .assertionError else .typeError

/-- core.RoutingTable.node_seen on a peer whose nodeid is a core.ID (the
only way protocol.py calls it): its own identity assert, then
_bucket_index_for raises before any bucket is read or written — the table
cannot change. -/
def node_seen_py (tableNodeId : PyID) (peer : PyNode) : PyError :=
  if tableNodeId.objId = peer.nodeid.objId then .assertionError
  else bucket_index_for_py tableNodeId peer.nodeid

/-- An inbound frame after decode: the nonce bytes (as a Nat), the sender
as read_node rebuilds it — with a freshly allocated ID — and the variant
tag. -/
structure PyMsg where
  nonce : Nat
  sender : PyNode
  body : MsgBody
deriving DecidableEq, Repr

/-- The state a running Protocol carries: the in-flight nonce map, the
table's own ID object, the local node descriptor (whose nodeid is that
same ID object in a running Server), and the value store. -/
structure PyProtocolState where
  outstanding_requests : List (Nat × Nat)
  tableNodeId : PyID
  node : PyNode
  storage : List (Nat × List Nat)
deriving DecidableEq, Repr

/-- What one call of Protocol.datagram_received does: drop a malformed
frame, take the (dead) `assert False` reflection branch, or let an
exception escape. -/
inductive PyRecvEffect where
  | dropMalformed
  | assertSelf
  | raised (e : PyError)
deriving DecidableEq, Repr

/-- protocol.Protocol.datagram_received as it actually executes.  Decode
failure (`none`) is logged and dropped.  Then `remote =
read_node(message.sender)` holds a freshly allocated ID, so the
reflection guard `remote.nodeid == self.node.nodeid` is an identity
comparison; if it were ever true the `assert False` would raise.
Otherwise `self.table.node_seen(remote)` runs and raises (TypeError from
`assert nodeid >= 0` on the ID, see node_seen_py); only
core.NoRoomInBucket is caught, so the exception escapes and the
nonce-correlation block (protocol.py:162-169) and the verb handlers below
it are never reached.  Every path returns the state unchanged: neither
the in-flight map nor the table nor the storage can be touched. -/
def datagram_received_py (st : PyProtocolState) (input : Option PyMsg) :
    PyRecvEffect × PyProtocolState :=
  match input with
  | none => (.dropMalformed, st)
  | some message =>
    if message.sender.nodeid.objId = st.node.nodeid.objId then (.assertSelf, st)
    else (.raised (node_seen_py st.tableNodeId message.sender), st)

/-! ### Server._lookup as it actually executes -/

/-- Outcome of one iteration of Server._lookup's `while True` body: an
exception escapes the loop, the loop breaks returning seen_nodes, or it
continues. -/
inductive PyStepResult where
  | raised (e : PyError)
  | finished (result : List PyNode)
  | next (queried : List Nat) (seen_nodes to_query : List PyNode)
deriving DecidableEq, Repr

/-- `node.nodeid.distance(targetnodeid)`: ID.distance works on two IDs
(`self.value ^ other.value`). -/
def pyDistance (target : PyID) (nd : PyNode) : Nat :=
  nd.nodeid.value ^^^ target.value

/-- Stable insertion for the `sorted(...)` call of Server._lookup, keyed
on XOR distance to the target. -/
def insertPyByDistance (target : PyID) (x : PyNode) : List PyNode → List PyNode
  | [] => [x]
  | y :: ys =>
    if pyDistance target x ≤ pyDistance target y then x :: y :: ys
    else y :: insertPyByDistance target x ys

def sortPyByDistance (target : PyID) : List PyNode → List PyNode
  | [] => []
  | x :: xs => insertPyByDistance target x (sortPyByDistance target xs)

/-- One iteration of Server._lookup's loop as it actually executes.
`queried` is the dict the source keys by `node.nodeid` — ID objects,
which hash and compare by identity, so the keys are object identities
(objIds), and a peer value re-parsed from a later response would never
count as queried.  If to_query is nonempty, the round's find_node /
find_value coroutines each call create_message(self.node), whose
write_nodeid raises AttributeError; asyncio.gather propagates it out of
the loop (the queried marks were set just before, but the loop is dead).
If to_query is empty no RPC is built: gather([]) yields no new nodes,
seen_nodes is re-sorted and truncated to k, and the loop breaks when no
unqueried shortlist member remains. -/
def lookupRound_py (selfNode : PyNode) (k : Nat) (target : PyID)
    (queried : List Nat) (seen_nodes to_query : List PyNode) : PyStepResult :=
  let queried' := queried ++ to_query.map (fun nd => nd.nodeid.objId)
  match to_query with
  | _ :: _ =>
    match create_message_py selfNode 0 with
    | .error e => .raised e
    | .ok _ => .raised .attributeError
    -- the .ok arm is unreachable: write_nodeid never succeeds, so the
    -- send/gather continuation of the source is never entered
  | [] =>
    let seen' := (sortPyByDistance target seen_nodes).take k
    let tq' := (seen'.filter (fun nd => !(queried'.contains nd.nodeid.objId))).take 3
    if tq'.isEmpty then .finished seen' else .next queried' seen' tq'

/-! ### Claim theorems about the typed protocol layer -/

/-- The receive-path state for C3: nonce 5 is in flight for future 77; the
node descriptor carries the same ID object as the table (objId 100). -/
def c3PyState : PyProtocolState :=
  ⟨[(5, 77)], ⟨100, 1⟩, ⟨"local", 1, ⟨100, 1⟩⟩, []⟩

/-- A pong whose nonce 5 IS in the in-flight map (sender id freshly
decoded, objId 200). -/
def c3PyGood : PyMsg := ⟨5, ⟨"remote", 2, ⟨200, 2⟩⟩, .pong⟩

/-- A pong whose nonce 6 is NOT in the in-flight map. -/
def c3PyBad : PyMsg := ⟨6, ⟨"remote", 2, ⟨201, 2⟩⟩, .pong⟩

/-- C3: the nonce-correlation logic is unreachable.  read_node wraps the
sender id in a freshly allocated core.ID; node_seen then raises TypeError
(`assert nodeid >= 0` on an ID) before the nonce lookup, and only
NoRoomInBucket would be caught.  So the response whose nonce IS in flight
never completes its slot, and the unknown-nonce response crashes the
receive path instead of being dropped; the in-flight map survives only
because the exception precedes it.  (test_protocol.test_nonce_matching
expects exactly the claimed behavior and fails on this code.)  The last
conjunct is general: every decoded frame with a fresh sender ID object
ends in the same escaping TypeError with the whole state unchanged. -/
theorem c3_nonce_block_unreachable :
    datagram_received_py c3PyState (some c3PyGood) = (.raised .typeError, c3PyState) ∧
    datagram_received_py c3PyState (some c3PyBad) = (.raised .typeError, c3PyState) ∧
    (5, 77) ∈ c3PyState.outstanding_requests ∧
    (∀ (st : PyProtocolState) (m : PyMsg),
      m.sender.nodeid.objId ≠ st.node.nodeid.objId →
      m.sender.nodeid.objId ≠ st.tableNodeId.objId →
      datagram_received_py st (some m) = (.raised .typeError, st)) := by
  refine ⟨by decide, by decide, by decide, ?_⟩
  intro st m h1 h2
  rw [datagram_received_py]
  rw [if_neg h1, node_seen_py, if_neg (fun h => h2 h.symm), bucket_index_for_py,
    if_neg (fun h => h2 h.symm)]

/-- Witness for C3's general conjunct at a further concrete frame. -/
theorem c3_typed_witness :
    (c3PyBad.sender.nodeid.objId ≠ c3PyState.node.nodeid.objId ∧
      c3PyBad.sender.nodeid.objId ≠ c3PyState.tableNodeId.objId) ∧
    datagram_received_py c3PyState (some c3PyBad) = (.raised .typeError, c3PyState) := by
  refine ⟨⟨by decide, by decide⟩, ?_⟩
  exact c3_nonce_block_unreachable.2.2.2 c3PyState c3PyBad (by decide) (by decide)

def c6PyState : PyProtocolState :=
  ⟨[], ⟨100, 8⟩, ⟨"local", 1, ⟨100, 8⟩⟩, []⟩

/-- A frame whose sender carries our own 160-bit id value (8) in a fresh
ID object (objId 200), as read_node always produces. -/
def c6PyMsg : PyMsg := ⟨6, ⟨"remote", 2, ⟨200, 8⟩⟩, .ping⟩

/-- C6: a frame claiming our own id is not dropped.  The reflection guard
`remote.nodeid == self.node.nodeid` compares the freshly decoded ID with
ours by object identity and is False, so the guard (and its
`assert False`) never fires; the frame proceeds into node_seen, which
raises TypeError, and that exception escapes the receive path — exactly
as for any other frame.  The routing table is not updated and no slot is
completed, but by a crash, not the claimed silent drop. -/
theorem c6_self_frame_not_dropped :
    c6PyMsg.sender.nodeid.value = c6PyState.node.nodeid.value ∧
    c6PyMsg.sender.nodeid.objId ≠ c6PyState.node.nodeid.objId ∧
    datagram_received_py c6PyState (some c6PyMsg) = (.raised .typeError, c6PyState) ∧
    (PyRecvEffect.raised .typeError ≠ .assertSelf ∧
      PyRecvEffect.raised .typeError ≠ .dropMalformed) := by
  refine ⟨by decide, by decide, by decide, by decide, by decide⟩

/-- C4: the iterative lookup cannot run a round.  Whenever to_query is
nonempty the round's RPCs die building their request: create_message
writes our own nodeid via write_nodeid = ID.to_bytes, which raises
AttributeError, and gather propagates it out of the loop — the iteration
neither returns a value, nor completes having enlarged the queried set,
nor terminates with the top-k queried.  Only the degenerate empty round
(an empty table gives to_query = [], since node_seen always raises the
table stays empty) terminates, returning the empty shortlist.
(test_protocol.test_node_lookup_one_empty_peer exercises the claimed loop
and fails on this code.) -/
theorem c4_lookup_round_crashes :
    (∀ (selfNode : PyNode) (k : Nat) (target : PyID) (queried : List Nat)
      (seen : List PyNode) (nd : PyNode) (tq : List PyNode),
      lookupRound_py selfNode k target queried seen (nd :: tq)
        = .raised .attributeError) ∧
    (∀ (nd : PyNode) (n : Nat), create_message_py nd n = .error .attributeError) ∧
    lookupRound_py ⟨"local", 1, ⟨100, 8⟩⟩ 2 ⟨101, 10⟩ [] [] [] = .finished [] := by
  refine ⟨fun selfNode k target queried seen nd tq => rfl, fun nd n => rfl, by decide⟩

end Kad
